import Mathlib

/-!
Verification of the covasim options store (`covasim/settings.py`).

The Python module manages a mutable global `Options` object: a dict of option
values, a captured default mapping `orig_options`, and side effects on
matplotlib's global render state plus a numba "reload" action.  We embed the
state as an explicit structure (`OState`) and `Options.set`,
`Options.set_matplotlib_global` and `Options.__init__` as pure functions over
it.  Python dicts are association lists with Python's update semantics
(replace in place, append new keys at the end); Python exceptions are an
`Option Err` component of the result, returned together with the state as it
stands when the exception is raised (Python mutations performed before the
raise persist).  The `reload_numba` side effect is modelled as a counter.
Python floats carry no arithmetic in this module, so they are embedded as
rationals (inert data).
-/

set_option autoImplicit false

/-- Values of matplotlib rc-parameter entries (`rc_simple` / `rc_covasim`). -/
inductive RcVal where
  | s (v : String)
  | b (v : Bool)
  | i (v : Int)
  | fonts (v : List String)
deriving DecidableEq, Repr

/-- Python values that appear as option values in `settings.py`:
`None`, bools, ints, floats (inert, embedded as rationals), strings, and the
structured rc dictionaries. -/
inductive Val where
  | vnone
  | vbool (b : Bool)
  | vint (n : Int)
  | vfloat (q : Rat)
  | vstr (s : String)
  | vrc (d : List (String × RcVal))
deriving DecidableEq, Repr

/-- Python's truthiness (`if value:` / `if interactive:`). -/
def truthy : Val → Bool
  | .vnone => false
  | .vbool b => b
  | .vint n => n != 0
  | .vfloat q => q != 0
  | .vstr s => s != ""
  | .vrc d => !d.isEmpty

/-- `value in [None, 'default']` (line 231 / 213 of settings.py).  The list
holds only `None` and the string `'default'`, so Python `==` coincides with
structural equality here. -/
def isNoneOrDefault (v : Val) : Bool :=
  decide (v = Val.vnone ∨ v = Val.vstr "default")

/-! ## Python dicts as association lists -/

/-- First-match lookup, i.e. Python `d[k]` / `d.get(k)` (keys are unique in a
real dict, so first match is the match). -/
def dlookup {α : Type} : List (String × α) → String → Option α
  | [], _ => none
  | (k', v) :: rest, k => if k' = k then some v else dlookup rest k

/-- Python `d[k] = v`: replace in place if the key is present, else append. -/
def dset {α : Type} : List (String × α) → String → α → List (String × α)
  | [], k, v => [(k, v)]
  | (k', v') :: rest, k, v =>
      if k' = k then (k', v) :: rest else (k', v') :: dset rest k v

/-- Python `d.keys()` (in order). -/
def dkeys {α : Type} (d : List (String × α)) : List String :=
  d.map Prod.fst

/-- `sc.mergedicts(d1, d2)`: a fresh dict holding `d1` updated by `d2`
(later dicts override earlier ones). -/
def mergedicts {α : Type} (d1 d2 : List (String × α)) : List (String × α) :=
  d2.foldl (fun acc kv => dset acc kv.1 kv.2) d1

/-! ## Executable string helpers

Lean's `String.toLower`, `String.splitOn` and `String.toInt?` recurse on
utf8 byte positions and do not reduce inside the kernel, so the string
operations the Python code performs are given directly on character lists.
The Python code only ever lowercases and parses ASCII text here. -/

/-- ASCII lowercasing of one character (what `str.lower` does on the ASCII
names this module compares). -/
def lowerChar (c : Char) : Char :=
  if 65 ≤ c.toNat ∧ c.toNat ≤ 90 then Char.ofNat (c.toNat + 32) else c

/-- `s.lower()` on the ASCII strings this module handles. -/
def strLower (s : String) : String :=
  String.mk (s.data.map lowerChar)

/-- Is the second list a leading segment of the first? -/
def startsWithL : List Char → List Char → Bool
  | _, [] => true
  | [], _ :: _ => false
  | a :: as, b :: bs => a == b && startsWithL as bs

/-- Python's `needle in haystack` substring test, on characters. -/
def containsL : List Char → List Char → Bool
  | [], needle => needle.isEmpty
  | c :: rest, needle => startsWithL (c :: rest) needle || containsL rest needle

/-- Decimal digit value. -/
def digitVal (c : Char) : Option Nat :=
  if 48 ≤ c.toNat ∧ c.toNat ≤ 57 then some (c.toNat - 48) else none

/-- Accumulate decimal digits; fails on any non-digit. -/
def natOfDigits : List Char → Nat → Option Nat
  | [], acc => some acc
  | c :: cs, acc =>
      match digitVal c with
      | none => none
      | some d => natOfDigits cs (acc * 10 + d)

/-- Python `int(s)` on the plain decimal strings fed to it from environment
variables (only `-` sign handling; other forms fail here as there). -/
def parseIntStr (s : String) : Option Int :=
  match s.data with
  | [] => none
  | ['-'] => none
  | '-' :: rest => (natOfDigits rest 0).map fun n => -(n : Int)
  | l => (natOfDigits l 0).map fun n => (n : Int)

/-- Split a character list at the literal dots. -/
def splitDot : List Char → List (List Char)
  | [] => [[]]
  | c :: cs =>
      if c = '.' then [] :: splitDot cs
      else
        match splitDot cs with
        | [] => [[c]]
        | h :: t => (c :: h) :: t

/-! ## Module-level constants of settings.py -/

def default_fonts : List String :=
  ["Arial", "Liberation Sans", "DejaVu Sans", "sans-serif"]

def rc_simple : List (String × RcVal) :=
  [("figure.facecolor", .s "white"),
   ("axes.spines.right", .b false),
   ("axes.spines.top", .b false),
   ("font.family", .s "sans-serif"),
   ("font.sans-serif", .fonts ("Muli" :: default_fonts)),
   ("legend.frameon", .b false)]

def rc_covasim : List (String × RcVal) :=
  mergedicts rc_simple
    [("axes.facecolor", .s "efefff"),
     ("axes.grid", .b true),
     ("grid.color", .s "white"),
     ("grid.linestyle", .s "-"),
     ("grid.linewidth", .i 1),
     ("font.sans-serif", .fonts ("Rosario" :: "Muli" :: default_fonts))]

/-- Keys whose change requires a numba reload (settings.py line 24). -/
def numba_keys : List String := ["precision", "numba_parallel", "numba_cache"]

/-- Keys pushed into matplotlib's global state (settings.py line 23). -/
def matplotlib_keys : List String :=
  ["backend", "style", "dpi", "font_size", "font_family"]

/-! ## Errors and state -/

/-- Python exceptions raised by the modelled code.
`keyNotFound` is `sc.KeyNotFoundError` from `set`'s loop (its message lists
`orig_options.keys()`); `keyError` is a plain dict `KeyError` from an
`orig_options[...]` lookup; `invalidStyle` is the `ValueError` from
`set_matplotlib_global` (its message lists `pl.style.available`);
`mplKeyNotFound` is the `sc.KeyNotFoundError` at the end of
`set_matplotlib_global`; `attrError` models `value.lower()` /
`pl.switch_backend(value)` on a non-string value. -/
inductive Err where
  | keyNotFound (key : String) (valid : List String)
  | keyError (key : String)
  | invalidStyle (style : String) (valid : List String)
  | mplKeyNotFound (key : String)
  | attrError
deriving DecidableEq, Repr

/-- Matplotlib's global state, as far as settings.py touches it:
`pl.rcParams['font.size']`, `pl.rcParams['figure.dpi']`, the active backend,
`pl.rcParams['font.family']`, the active style (the baseline style is
`"default"`), and the environment-dependent list `pl.style.available`. -/
structure MplState where
  fontSize : Val
  figureDpi : Val
  backend : String
  fontFamily : Val
  style : String
  available : List String
deriving DecidableEq, Repr

/-- The state of the `Options` object: the live value dict `self.options`,
the captured default dict `self.orig_options`, matplotlib's global state, and
a counter of `reload_numba` invocations. -/
structure OState where
  options : List (String × Val)
  orig_options : List (String × Val)
  mpl : MplState
  reloadCount : Nat
deriving DecidableEq, Repr

/-! ## set_matplotlib_global -/

/-- `Options.set_matplotlib_global(key, value, available_fonts)`
(settings.py lines 291-309).  The whole body is guarded by `if value:`, so a
falsy value is skipped entirely.  `pl.style.use('default')` resets to the
baseline style.  Backend switching is modelled as always available. -/
def setMplGlobal (m : MplState) (key : String) (value : Val)
    (availableFonts : Option (List String)) : Except Err MplState :=
  if truthy value then
    if key = "font_size" then .ok { m with fontSize := value }
    else if key = "dpi" then .ok { m with figureDpi := value }
    else if key = "backend" then
      match value with
      | .vstr b => .ok { m with backend := b }
      | _ => .error .attrError
    else if key = "font_family" then
      match availableFonts with
      | none => .ok { m with fontFamily := value }
      | some fonts =>
          if (match value with | .vstr s => fonts.contains s | _ => false) then
            .ok { m with fontFamily := value }
          else .ok m
    else if key = "style" then
      match value with
      | .vnone => .ok { m with style := "default" }
      | .vstr s =>
          if strLower s = "covasim" then .ok { m with style := "default" }
          else if s ∈ m.available then .ok { m with style := s }
          else .error (.invalidStyle s m.available)
      | _ => .error .attrError
    else .error (.mplKeyNotFound key)
  else .ok m

/-! ## Options.set -/

/-- The fixed Jupyter preset (settings.py lines 192-196). -/
def jupyterKwargs : List (String × Val) :=
  [("dpi", .vint 100), ("show", .vbool false), ("close", .vbool true)]

/-- `sc.isstring(key) and 'jupyter' in key.lower()` (line 191), for a string
key: a case-insensitive substring test. -/
def hasJupyter (s : String) : Bool :=
  containsL (strLower s).data "jupyter".data

/-- `value = self.orig_options[key] if value in [None, 'default']`
(lines 231-232); `none` is the dict `KeyError` case. -/
def resolveVal (orig : List (String × Val)) (k : String) (v : Val) :
    Option Val :=
  if isNoneOrDefault v then dlookup orig k else some v

/-- Lines 186-207 of `set`: resolve the positional key into the kwargs dict.
The second component records whether the resulting dict is the *same object*
as `self.orig_options` (the `kwargs = self.orig_options` aliasing on
line 188).  The jupyter branch's `matplotlib_inline` retina call touches no
modelled state and its failures are swallowed by a blanket `except`.
The positional key is a string or `None` here (the only shapes the module's
callers and claims use). -/
def stepA (st : OState) (key : Option String) (value : Val)
    (kwargs : List (String × Val)) : List (String × Val) × Bool :=
  match key with
  | none => (kwargs, false)
  | some k =>
      if k = "default" ∨ k = "defaults" then (st.orig_options, true)
      else if hasJupyter k then (mergedicts jupyterKwargs kwargs, false)
      else (mergedicts kwargs [(k, value)], false)

/-- Lines 210-221 of `set`: the `interactive` expansion, performed by
mutating the kwargs dict in place. -/
def stepB (orig kw : List (String × Val)) : Except Err (List (String × Val)) :=
  match dlookup kw "interactive" with
  | none => .ok kw
  | some iv0 =>
      match (if isNoneOrDefault iv0 then dlookup orig "interactive"
             else some iv0) with
      | none => .error (.keyError "interactive")
      | some iv =>
          if truthy iv then
            match dlookup orig "backend" with
            | none => .error (.keyError "backend")
            | some b =>
                .ok (dset (dset (dset kw "show" (.vbool true))
                      "close" (.vbool false)) "backend" b)
          else
            .ok (dset (dset kw "show" (.vbool false)) "backend" (.vstr "agg"))

/-- Lines 223-237 of `set`: the per-key loop.  Returns the state as committed
so far, the `reload_required` flag, and the exception if one was raised.
Note `options[key] = value` is committed *before* `set_matplotlib_global`
runs (and can raise). -/
def processPairs : OState → Bool → List (String × Val) → OState × Bool × Option Err
  | st, rq, [] => (st, rq, none)
  | st, rq, (k, v) :: rest =>
      if (dlookup st.options k).isSome then
        match resolveVal st.orig_options k v with
        | none => (st, rq, some (.keyError k))
        | some v1 =>
            if k ∈ matplotlib_keys then
              match setMplGlobal st.mpl k v1 none with
              | .error e => ({ st with options := dset st.options k v1 },
                             rq || decide (k ∈ numba_keys), some e)
              | .ok m => processPairs
                  { st with options := dset st.options k v1, mpl := m }
                  (rq || decide (k ∈ numba_keys)) rest
            else processPairs { st with options := dset st.options k v1 }
                  (rq || decide (k ∈ numba_keys)) rest
      else (st, rq, some (.keyNotFound k (dkeys st.orig_options)))

/-- `Options.set(key, value, **kwargs)` (settings.py lines 182-241).
Returns the new state and the raised exception, if any.  When the kwargs
dict is aliased to `orig_options` (the `'defaults'` branch), the in-place
`interactive` expansion writes through to `orig_options`; `reload_numba`
runs once, after the loop, only if the loop finished without raising. -/
def setCall (st : OState) (key : Option String) (value : Val)
    (kwargs : List (String × Val)) : OState × Option Err :=
  let a := stepA st key value kwargs
  match stepB st.orig_options a.1 with
  | .error e => (st, some e)
  | .ok kw2 =>
      let st2 := if a.2 then { st with orig_options := kw2 } else st
      let r := processPairs st2 false kw2
      match r.2.2 with
      | some e => (r.1, some e)
      | none =>
          ({ r.1 with reloadCount :=
              if r.2.1 then r.1.reloadCount + 1 else r.1.reloadCount }, none)

/-- The resolved override dict of a `set` call: the kwargs as they stand when
the per-key loop starts (after the positional-key merge and the `interactive`
expansion). -/
def resolvedOverrides (st : OState) (key : Option String) (value : Val)
    (kwargs : List (String × Val)) : Except Err (List (String × Val)) :=
  stepB st.orig_options (stepA st key value kwargs).1

/-! ## Construction (`Options.__init__` / `_set_default_options`) -/

/-- Python `int()` truncates toward zero; on rationals that is
truncated division of numerator by denominator. -/
def ratTrunc (q : Rat) : Int :=
  q.num.tdiv (q.den : Int)

/-- Python `int(x)` on the values that reach it in `_set_default_options`. -/
def pyToInt : Val → Option Int
  | .vint n => some n
  | .vbool b => some (if b then 1 else 0)
  | .vfloat q => some (ratTrunc q)
  | .vstr s => parseIntStr s
  | _ => none

/-- Python `float(s)` on plain decimal literals (the only strings fed to it
are environment-variable values; non-numeric strings fail, and degenerate
literals are not exercised by this module's callers). -/
def parseFloat (s : String) : Option Rat :=
  match s.data with
  | [] => none
  | ['-'] => none
  | l =>
      let sgn : Rat := match l with | '-' :: _ => -1 | _ => 1
      let t : List Char := match l with | '-' :: rest => rest | _ => l
      match splitDot t with
      | [a] => (natOfDigits a 0).map fun n => sgn * (n : Rat)
      | [a, b] =>
          if a.isEmpty && b.isEmpty then none
          else
            match natOfDigits a 0, natOfDigits b 0 with
            | some n, some f =>
                some (sgn * ((n : Rat) + (f : Rat) / ((10 : Rat) ^ b.length)))
            | _, _ => none
      | _ => none

/-- `_set_default_options` followed by `self.orig_options = sc.dcp(self.options)`
(settings.py lines 89-94 and 121-179).  `env` is the process environment;
`mpl0` is matplotlib's state at import time (`pl.get_backend()`,
`pl.rcParams['figure.dpi']`, `pl.rcParams['font.size']`).  `none` is a failed
env-var conversion (`int()`/`float()` raising).  `load_custom_fonts` touches
no modelled state. -/
def construct (env : String → Option String) (mpl0 : MplState) :
    Option OState := do
  let verbose ← match env "COVASIM_VERBOSE" with
    | none => some (Val.vfloat (1 / 10))
    | some s => (parseFloat s).map Val.vfloat
  let sep := Val.vstr ((env "COVASIM_SEP").getD ",")
  let showv ← match env "COVASIM_SHOW" with
    | none => some (Val.vint 1)
    | some s => (parseIntStr s).map Val.vint
  let closev ← match env "COVASIM_CLOSE" with
    | none => some (Val.vint 0)
    | some s => (parseIntStr s).map Val.vint
  let backend := Val.vstr ((env "COVASIM_BACKEND").getD mpl0.backend)
  let interactive := match env "COVASIM_INTERACTIVE" with
    | none => Val.vbool true
    | some s => Val.vstr s
  let style := Val.vstr ((env "COVASIM_STYLE").getD "covasim")
  let dpi ← match env "COVASIM_DPI" with
    | none => (pyToInt mpl0.figureDpi).map Val.vint
    | some s => (parseIntStr s).map Val.vint
  let fontSize ← match env "COVASIM_FONT_SIZE" with
    | none => (pyToInt mpl0.fontSize).map Val.vint
    | some s => (parseIntStr s).map Val.vint
  let fontFamily := Val.vstr ((env "COVASIM_FONT_FAMILY").getD "Rosario")
  let precision ← match env "COVASIM_PRECISION" with
    | none => some (Val.vint 32)
    | some s => (parseIntStr s).map Val.vint
  let numbaParallel := Val.vstr ((env "COVASIM_NUMBA_PARALLEL").getD "none")
  let numbaCache ← match env "COVASIM_NUMBA_CACHE" with
    | none => some (Val.vbool true)
    | some s => (parseIntStr s).map fun n => Val.vbool (n != 0)
  let opts : List (String × Val) :=
    [("verbose", verbose), ("sep", sep), ("show", showv), ("close", closev),
     ("backend", backend), ("interactive", interactive), ("style", style),
     ("rc", Val.vrc rc_covasim), ("rc_simple", Val.vrc rc_simple),
     ("dpi", dpi), ("font_size", fontSize), ("font_family", fontFamily),
     ("precision", precision), ("numba_parallel", numbaParallel),
     ("numba_cache", numbaCache)]
  pure { options := opts, orig_options := opts, mpl := mpl0, reloadCount := 0 }

/-! ## Dictionary lemmas -/

theorem dlookup_dset_self {α : Type} (d : List (String × α)) (k : String)
    (v : α) : dlookup (dset d k v) k = some v := by
  induction d with
  | nil => simp [dset, dlookup]
  | cons hd tl ih =>
      obtain ⟨k', v'⟩ := hd
      by_cases h : k' = k <;> simp [dset, dlookup, h, ih]

theorem dlookup_dset_ne {α : Type} (d : List (String × α)) (k a : String)
    (v : α) (h : a ≠ k) : dlookup (dset d k v) a = dlookup d a := by
  induction d with
  | nil => simp [dset, dlookup, Ne.symm h]
  | cons hd tl ih =>
      obtain ⟨k', v'⟩ := hd
      by_cases hk : k' = k <;> by_cases ha : k' = a <;>
        simp_all [dset, dlookup]

theorem dlookup_eq_none_iff {α : Type} (d : List (String × α)) (k : String) :
    dlookup d k = none ↔ k ∉ dkeys d := by
  induction d with
  | nil => simp [dlookup, dkeys]
  | cons hd tl ih =>
      obtain ⟨k', v'⟩ := hd
      by_cases h : k' = k
      · subst h
        simp [dlookup, dkeys]
      · simp only [dlookup, if_neg h, dkeys, List.map_cons, List.mem_cons]
        constructor
        · intro hnone hmem
          rcases hmem with he | hm
          · exact h he.symm
          · exact (ih.mp hnone) hm
        · intro hnm
          exact ih.mpr fun hm => hnm (Or.inr hm)

theorem dlookup_isSome_iff {α : Type} (d : List (String × α)) (k : String) :
    (dlookup d k).isSome = true ↔ k ∈ dkeys d := by
  rw [Option.isSome_iff_ne_none]
  exact not_iff_comm.mp (dlookup_eq_none_iff d k).symm

theorem dlookup_mem {α : Type} (d : List (String × α)) (k : String) (v : α)
    (h : dlookup d k = some v) : (k, v) ∈ d := by
  induction d with
  | nil => simp [dlookup] at h
  | cons hd tl ih =>
      obtain ⟨k', v'⟩ := hd
      by_cases hk : k' = k
      · subst hk
        simp [dlookup] at h
        simp [h]
      · simp [dlookup, hk] at h
        simp [ih h]

theorem mem_dlookup {α : Type} (d : List (String × α)) (k : String) (v : α)
    (hnd : (dkeys d).Nodup) (h : (k, v) ∈ d) : dlookup d k = some v := by
  induction d with
  | nil => simp at h
  | cons hd tl ih =>
      obtain ⟨k', v'⟩ := hd
      simp only [dkeys, List.map_cons, List.nodup_cons] at hnd
      rcases List.mem_cons.mp h with heq | htl
      · cases heq
        simp [dlookup]
      · have hkne : k' ≠ k := by
          intro hc
          subst hc
          exact hnd.1 (List.mem_map_of_mem Prod.fst htl)
        simp only [dlookup, if_neg hkne]
        exact ih hnd.2 htl

theorem mem_dkeys_of_mem {α : Type} {d : List (String × α)} {k : String}
    {v : α} (h : (k, v) ∈ d) : k ∈ dkeys d :=
  List.mem_map_of_mem Prod.fst h

theorem exists_of_mem_dkeys {α : Type} {d : List (String × α)} {k : String}
    (h : k ∈ dkeys d) : ∃ v, (k, v) ∈ d := by
  rcases List.mem_map.mp h with ⟨⟨k', v⟩, hm, hk⟩
  cases hk
  exact ⟨v, hm⟩

theorem mem_dkeys_dset {α : Type} (d : List (String × α)) (k a : String)
    (v : α) : a ∈ dkeys (dset d k v) ↔ a ∈ dkeys d ∨ a = k := by
  induction d with
  | nil => simp [dset, dkeys]
  | cons hd tl ih =>
      obtain ⟨k', v'⟩ := hd
      by_cases h : k' = k
      · simp_all [dset, dkeys]
      · simp_all [dset, dkeys]
        tauto

theorem dkeys_dset_of_mem {α : Type} (d : List (String × α)) (k : String)
    (v : α) (h : k ∈ dkeys d) : dkeys (dset d k v) = dkeys d := by
  induction d with
  | nil => simp [dkeys] at h
  | cons hd tl ih =>
      obtain ⟨k', v'⟩ := hd
      by_cases hk : k' = k
      · simp [dset, hk, dkeys]
      · simp only [dkeys, List.map_cons] at h ⊢
        rcases List.mem_cons.mp h with heq | htl
        · exact (hk heq.symm).elim
        · simp only [dset, if_neg hk, List.map_cons]
          exact congrArg (List.cons k') (ih htl)

theorem nodup_dkeys_dset {α : Type} (d : List (String × α)) (k : String)
    (v : α) (h : (dkeys d).Nodup) : (dkeys (dset d k v)).Nodup := by
  induction d with
  | nil => simp [dset, dkeys]
  | cons hd tl ih =>
      obtain ⟨k', v'⟩ := hd
      simp only [dkeys, List.map_cons, List.nodup_cons] at h
      by_cases hk : k' = k
      · simp only [dset, if_pos hk, dkeys, List.map_cons, List.nodup_cons]
        exact ⟨h.1, h.2⟩
      · simp only [dset, if_neg hk, dkeys, List.map_cons, List.nodup_cons]
        refine ⟨fun hc => ?_, ih h.2⟩
        rcases (mem_dkeys_dset tl k k' v).mp hc with hm | he
        · exact h.1 hm
        · exact hk he

theorem mergedicts_nil {α : Type} (d1 : List (String × α)) :
    mergedicts d1 [] = d1 := rfl

theorem mergedicts_cons {α : Type} (d1 : List (String × α)) (k : String)
    (v : α) (rest : List (String × α)) :
    mergedicts d1 ((k, v) :: rest) = mergedicts (dset d1 k v) rest := rfl

theorem dlookup_mergedicts_of_not_mem {α : Type} (d2 : List (String × α)) :
    ∀ (d1 : List (String × α)) (k : String), k ∉ dkeys d2 →
    dlookup (mergedicts d1 d2) k = dlookup d1 k := by
  induction d2 with
  | nil => intro d1 k _; rfl
  | cons hd tl ih =>
      intro d1 k h
      obtain ⟨k0, v0⟩ := hd
      simp only [dkeys, List.map_cons, List.mem_cons] at h
      push_neg at h
      rw [mergedicts_cons, ih _ _ (by simpa [dkeys] using h.2),
        dlookup_dset_ne _ _ _ _ h.1]

theorem dlookup_mergedicts_of_lookup {α : Type} (d2 : List (String × α)) :
    ∀ (d1 : List (String × α)) (k : String) (v : α), (dkeys d2).Nodup →
    dlookup d2 k = some v → dlookup (mergedicts d1 d2) k = some v := by
  induction d2 with
  | nil => intro d1 k v _ h; simp [dlookup] at h
  | cons hd tl ih =>
      intro d1 k v hnd h
      obtain ⟨k0, v0⟩ := hd
      simp only [dkeys, List.map_cons, List.nodup_cons] at hnd
      by_cases hk : k0 = k
      · subst hk
        simp only [dlookup, if_pos rfl] at h
        cases h
        rw [mergedicts_cons,
          dlookup_mergedicts_of_not_mem tl _ _ hnd.1,
          dlookup_dset_self]
      · simp only [dlookup, if_neg hk] at h
        rw [mergedicts_cons]
        exact ih _ _ _ hnd.2 h

theorem nodup_dkeys_mergedicts {α : Type} (d2 : List (String × α)) :
    ∀ (d1 : List (String × α)), (dkeys d1).Nodup →
    (dkeys (mergedicts d1 d2)).Nodup := by
  induction d2 with
  | nil => intro d1 h; exact h
  | cons hd tl ih =>
      intro d1 h
      rw [mergedicts_cons]
      exact ih _ (nodup_dkeys_dset _ _ _ h)

/-! ## Loop lemmas -/

theorem pp_orig (l : List (String × Val)) : ∀ (st : OState) (rq : Bool),
    (processPairs st rq l).1.orig_options = st.orig_options := by
  induction l with
  | nil => intro st rq; rfl
  | cons hd tl ih =>
      intro st rq
      obtain ⟨k, v⟩ := hd
      by_cases hmem : (dlookup st.options k).isSome = true
      · cases hres : resolveVal st.orig_options k v with
        | none => simp [processPairs, hmem, hres]
        | some v1 =>
            by_cases hmt : k ∈ matplotlib_keys
            · cases hm : setMplGlobal st.mpl k v1 none with
              | error e => simp [processPairs, hmem, hres, hmt, hm]
              | ok m => simp [processPairs, hmem, hres, hmt, hm, ih]
            · simp [processPairs, hmem, hres, hmt, ih]
      · simp [processPairs, hmem]

theorem pp_reload (l : List (String × Val)) : ∀ (st : OState) (rq : Bool),
    (processPairs st rq l).1.reloadCount = st.reloadCount := by
  induction l with
  | nil => intro st rq; rfl
  | cons hd tl ih =>
      intro st rq
      obtain ⟨k, v⟩ := hd
      by_cases hmem : (dlookup st.options k).isSome = true
      · cases hres : resolveVal st.orig_options k v with
        | none => simp [processPairs, hmem, hres]
        | some v1 =>
            by_cases hmt : k ∈ matplotlib_keys
            · cases hm : setMplGlobal st.mpl k v1 none with
              | error e => simp [processPairs, hmem, hres, hmt, hm]
              | ok m => simp [processPairs, hmem, hres, hmt, hm, ih]
            · simp [processPairs, hmem, hres, hmt, ih]
      · simp [processPairs, hmem]

theorem pp_dkeys (l : List (String × Val)) : ∀ (st : OState) (rq : Bool),
    dkeys (processPairs st rq l).1.options = dkeys st.options := by
  induction l with
  | nil => intro st rq; rfl
  | cons hd tl ih =>
      intro st rq
      obtain ⟨k, v⟩ := hd
      by_cases hmem : (dlookup st.options k).isSome = true
      · have hk : k ∈ dkeys st.options := (dlookup_isSome_iff _ _).mp hmem
        cases hres : resolveVal st.orig_options k v with
        | none => simp [processPairs, hmem, hres]
        | some v1 =>
            by_cases hmt : k ∈ matplotlib_keys
            · cases hm : setMplGlobal st.mpl k v1 none with
              | error e =>
                  simp [processPairs, hmem, hres, hmt, hm,
                    dkeys_dset_of_mem _ _ _ hk]
              | ok m =>
                  simp [processPairs, hmem, hres, hmt, hm, ih,
                    dkeys_dset_of_mem _ _ _ hk]
            · simp [processPairs, hmem, hres, hmt, ih,
                dkeys_dset_of_mem _ _ _ hk]
      · simp [processPairs, hmem]

theorem pp_untouched (l : List (String × Val)) : ∀ (st : OState) (rq : Bool)
    (a : String), a ∉ dkeys l →
    dlookup (processPairs st rq l).1.options a = dlookup st.options a := by
  induction l with
  | nil => intro st rq a _; rfl
  | cons hd tl ih =>
      intro st rq a ha
      obtain ⟨k, v⟩ := hd
      simp only [dkeys, List.map_cons, List.mem_cons, not_or] at ha
      by_cases hmem : (dlookup st.options k).isSome = true
      · cases hres : resolveVal st.orig_options k v with
        | none => simp [processPairs, hmem, hres]
        | some v1 =>
            by_cases hmt : k ∈ matplotlib_keys
            · cases hm : setMplGlobal st.mpl k v1 none with
              | error e =>
                  simp [processPairs, hmem, hres, hmt, hm,
                    dlookup_dset_ne _ _ _ _ ha.1]
              | ok m =>
                  have h2 := ih
                    { st with options := dset st.options k v1, mpl := m }
                    (rq || decide (k ∈ numba_keys)) a ha.2
                  simp [processPairs, hmem, hres, hmt, hm, h2,
                    dlookup_dset_ne _ _ _ _ ha.1]
            · have h2 := ih { st with options := dset st.options k v1 }
                (rq || decide (k ∈ numba_keys)) a ha.2
              simp [processPairs, hmem, hres, hmt, h2,
                dlookup_dset_ne _ _ _ _ ha.1]
      · simp [processPairs, hmem]

theorem pp_append_ok (l1 : List (String × Val)) :
    ∀ (l2 : List (String × Val)) (st st1 : OState) (rq rq1 : Bool),
    processPairs st rq l1 = (st1, rq1, none) →
    processPairs st rq (l1 ++ l2) = processPairs st1 rq1 l2 := by
  induction l1 with
  | nil =>
      intro l2 st st1 rq rq1 h
      simp only [processPairs, Prod.mk.injEq] at h
      obtain ⟨rfl, rfl, -⟩ := h
      rfl
  | cons hd tl ih =>
      intro l2 st st1 rq rq1 h
      obtain ⟨k, v⟩ := hd
      by_cases hmem : (dlookup st.options k).isSome = true
      · cases hres : resolveVal st.orig_options k v with
        | none => simp [processPairs, hmem, hres] at h
        | some v1 =>
            by_cases hmt : k ∈ matplotlib_keys
            · cases hm : setMplGlobal st.mpl k v1 none with
              | error e => simp [processPairs, hmem, hres, hmt, hm] at h
              | ok m =>
                  simp only [List.cons_append]
                  simp [processPairs, hmem, hres, hmt, hm] at h ⊢
                  exact ih _ _ _ _ _ h
            · simp only [List.cons_append]
              simp [processPairs, hmem, hres, hmt] at h ⊢
              exact ih _ _ _ _ _ h
      · simp [processPairs, hmem] at h

theorem pp_rq_ok (l : List (String × Val)) :
    ∀ (st st' : OState) (rq rq' : Bool),
    processPairs st rq l = (st', rq', none) →
    rq' = (rq || l.any fun kv => decide (kv.1 ∈ numba_keys)) := by
  induction l with
  | nil =>
      intro st st' rq rq' h
      simp only [processPairs, Prod.mk.injEq] at h
      simp [← h.2.1]
  | cons hd tl ih =>
      intro st st' rq rq' h
      obtain ⟨k, v⟩ := hd
      by_cases hmem : (dlookup st.options k).isSome = true
      · cases hres : resolveVal st.orig_options k v with
        | none => simp [processPairs, hmem, hres] at h
        | some v1 =>
            by_cases hmt : k ∈ matplotlib_keys
            · cases hm : setMplGlobal st.mpl k v1 none with
              | error e => simp [processPairs, hmem, hres, hmt, hm] at h
              | ok m =>
                  simp [processPairs, hmem, hres, hmt, hm] at h
                  rw [ih _ _ _ _ h]
                  simp [Bool.or_assoc]
            · simp [processPairs, hmem, hres, hmt] at h
              rw [ih _ _ _ _ h]
              simp [Bool.or_assoc]
      · simp [processPairs, hmem] at h

theorem pp_lookup_ok (l : List (String × Val)) :
    ∀ (st st' : OState) (rq rq' : Bool), (dkeys l).Nodup →
    processPairs st rq l = (st', rq', none) →
    ∀ (a : String) (b : Val), (a, b) ∈ l →
    dlookup st'.options a = resolveVal st.orig_options a b := by
  induction l with
  | nil => intro st st' rq rq' _ _ a b hab; simp at hab
  | cons hd tl ih =>
      intro st st' rq rq' hnd h a b hab
      obtain ⟨k, v⟩ := hd
      simp only [dkeys, List.map_cons, List.nodup_cons] at hnd
      by_cases hmem : (dlookup st.options k).isSome = true
      · cases hres : resolveVal st.orig_options k v with
        | none => simp [processPairs, hmem, hres] at h
        | some v1 =>
            by_cases hmt : k ∈ matplotlib_keys
            · cases hm : setMplGlobal st.mpl k v1 none with
              | error e => simp [processPairs, hmem, hres, hmt, hm] at h
              | ok m =>
                  simp [processPairs, hmem, hres, hmt, hm] at h
                  rcases List.mem_cons.mp hab with heq | htl
                  · rw [Prod.mk.injEq] at heq
                    obtain ⟨rfl, rfl⟩ := heq
                    have hu := pp_untouched tl
                      { st with options := dset st.options a v1, mpl := m }
                      (rq || decide (a ∈ numba_keys)) a hnd.1
                    rw [h] at hu
                    rw [hu, hres]
                    exact dlookup_dset_self _ _ _
                  · exact ih _ _ _ _ hnd.2 h a b htl
            · simp [processPairs, hmem, hres, hmt] at h
              rcases List.mem_cons.mp hab with heq | htl
              · rw [Prod.mk.injEq] at heq
                obtain ⟨rfl, rfl⟩ := heq
                have hu := pp_untouched tl
                  { st with options := dset st.options a v1 }
                  (rq || decide (a ∈ numba_keys)) a hnd.1
                rw [h] at hu
                rw [hu, hres]
                exact dlookup_dset_self _ _ _
              · exact ih _ _ _ _ hnd.2 h a b htl
      · simp [processPairs, hmem] at h

/-! ## Expansion-step lemmas -/

theorem stepB_no_interactive (orig kw : List (String × Val))
    (h : dlookup kw "interactive" = none) : stepB orig kw = .ok kw := by
  simp only [stepB, h]

theorem stepB_nodup (orig kw kw2 : List (String × Val))
    (h : stepB orig kw = .ok kw2) (hnd : (dkeys kw).Nodup) :
    (dkeys kw2).Nodup := by
  simp only [stepB] at h
  cases hiv : dlookup kw "interactive" with
  | none =>
      simp only [hiv] at h
      injection h with h
      subst h
      exact hnd
  | some iv0 =>
      simp only [hiv] at h
      cases hres : (if isNoneOrDefault iv0 then dlookup orig "interactive"
          else some iv0) with
      | none =>
          simp only [hres] at h
          exact Except.noConfusion h
      | some iv =>
          simp only [hres] at h
          by_cases ht : truthy iv = true
          · simp only [ht, if_true] at h
            cases hb : dlookup orig "backend" with
            | none =>
                simp only [hb] at h
                exact Except.noConfusion h
            | some b =>
                simp only [hb] at h
                injection h with h
                subst h
                exact nodup_dkeys_dset _ _ _
                  (nodup_dkeys_dset _ _ _ (nodup_dkeys_dset _ _ _ hnd))
          · simp only [ht, if_false] at h
            injection h with h
            subst h
            exact nodup_dkeys_dset _ _ _ (nodup_dkeys_dset _ _ _ hnd)

theorem stepB_mem (orig kw kw2 : List (String × Val))
    (h : stepB orig kw = .ok kw2) :
    ∀ a ∈ dkeys kw, a ∈ dkeys kw2 := by
  intro a ha
  simp only [stepB] at h
  cases hiv : dlookup kw "interactive" with
  | none =>
      simp only [hiv] at h
      injection h with h
      subst h
      exact ha
  | some iv0 =>
      simp only [hiv] at h
      cases hres : (if isNoneOrDefault iv0 then dlookup orig "interactive"
          else some iv0) with
      | none =>
          simp only [hres] at h
          exact Except.noConfusion h
      | some iv =>
          simp only [hres] at h
          by_cases ht : truthy iv = true
          · simp only [ht, if_true] at h
            cases hb : dlookup orig "backend" with
            | none =>
                simp only [hb] at h
                exact Except.noConfusion h
            | some b =>
                simp only [hb] at h
                injection h with h
                subst h
                exact (mem_dkeys_dset _ _ _ _).mpr (Or.inl
                  ((mem_dkeys_dset _ _ _ _).mpr (Or.inl
                    ((mem_dkeys_dset _ _ _ _).mpr (Or.inl ha)))))
          · simp only [ht, if_false] at h
            injection h with h
            subst h
            exact (mem_dkeys_dset _ _ _ _).mpr (Or.inl
              ((mem_dkeys_dset _ _ _ _).mpr (Or.inl ha)))

/-! ## Concrete environments and states -/

/-- A representative matplotlib import-time state. -/
def mplW : MplState :=
  { fontSize := .vfloat 10, figureDpi := .vfloat 100, backend := "TkAgg",
    fontFamily := .vstr "sans-serif", style := "default",
    available := ["classic", "ggplot"] }

/-- An empty process environment: no `COVASIM_*` variable set. -/
def envEmpty : String → Option String := fun _ => none

/-- A process environment seeding `COVASIM_SHOW=2` and nothing else. -/
def envShow2 : String → Option String :=
  fun k => if k = "COVASIM_SHOW" then some "2" else none

/-- The store as constructed with no environment overrides. -/
def stW : OState := (construct envEmpty mplW).getD ⟨[], [], mplW, 0⟩

/-- A matplotlib state whose active style is `'ggplot'`. -/
def mC4 : MplState :=
  { fontSize := .vfloat 10, figureDpi := .vfloat 100, backend := "TkAgg",
    fontFamily := .vstr "sans-serif", style := "ggplot",
    available := ["classic", "ggplot"] }

/-- The default store with the live `dpi` value changed to 150. -/
def stC9 : OState :=
  { stW with options := dset stW.options "dpi" (Val.vint 150) }

/-- The default store with the live `style` value replaced by the invalid
name, as a failed `set(style=...)` call commits it. -/
def stC3after : OState :=
  { stW with options := dset stW.options "style" (Val.vstr "not-a-real-style") }

/-! ## Claims -/

/-- C10: for every state and every value `v`, `set(None, v)` with no keyword
overrides is a complete no-op: the positional value is ignored, every
option's current value, the defaults, the matplotlib globals and the reload
counter are unchanged, and no exception is raised. -/
theorem C10_set_none_noop (st : OState) (v : Val) :
    setCall st none v [] = (st, none) := rfl

/-- C1: the claim fails on the code.  `set('defaults')` binds the kwargs
dict to `self.orig_options` without copying (settings.py line 188), and the
interactive expansion then writes `kwargs['show']` through the alias.
Constructing with `COVASIM_SHOW=2` captures `orig_options['show'] == 2`; a
single `set('defaults')` call overwrites it with `True`, and a subsequent
`set('show', 'default')` stores `True`, not the originally captured `2`. -/
theorem C1_orig_mutated :
    ((construct envShow2 mplW).map fun st =>
      (dlookup st.orig_options "show",
       dlookup ((setCall st (some "defaults") Val.vnone []).1).orig_options
         "show",
       dlookup ((setCall (setCall st (some "defaults") Val.vnone []).1
           (some "show") (Val.vstr "default") []).1).options "show"))
    = some (some (Val.vint 2), some (Val.vbool true), some (Val.vbool true)) := by
  decide

/-- C3 counterexample: on the default-constructed store,
`set(style='not-a-real-style')` raises the invalid-style error, but
`get('style')` afterwards returns the invalid name instead of the previous
value `'covasim'`: the claim's "stored style unchanged" part is false. -/
theorem C3_counterexample :
    (setCall stW none Val.vnone [("style", Val.vstr "not-a-real-style")]).2
        = some (Err.invalidStyle "not-a-real-style" ["classic", "ggplot"])
      ∧ dlookup (setCall stW none Val.vnone
          [("style", Val.vstr "not-a-real-style")]).1.options "style"
        = some (Val.vstr "not-a-real-style")
      ∧ dlookup stW.options "style" = some (Val.vstr "covasim") := by
  decide

/-- C3 (amended): `set(style=s)` for a non-empty style name `s` that is not
`'default'`, not case-insensitively `'covasim'` and not among the render
library's recognized style names raises the invalid-style error enumerating
the valid names, but the invalid value is committed first: the whole effect
is exactly `options['style'] := s` plus the raised error (matplotlib state,
defaults and reload counter untouched), so `get('style')` afterwards returns
`s`, not the prior value. -/
theorem C3_invalid_style (st : OState) (s : String)
    (hmem : "style" ∈ dkeys st.options)
    (h0 : s ≠ "") (h1 : s ≠ "default")
    (h2 : strLower s ≠ "covasim")
    (h3 : s ∉ st.mpl.available) :
    setCall st none Val.vnone [("style", Val.vstr s)]
      = ({ st with options := dset st.options "style" (Val.vstr s) },
         some (Err.invalidStyle s st.mpl.available)) := by
  have hso : (dlookup st.options "style").isSome = true :=
    (dlookup_isSome_iff _ _).mpr hmem
  simp [setCall, stepA, stepB, dlookup, processPairs, resolveVal,
    isNoneOrDefault, setMplGlobal, truthy, matplotlib_keys, numba_keys,
    hso, h0, h1, h2, h3]

/-- C3 witness: the amended theorem at a concrete input. -/
theorem C3_witness :
    ("style" ∈ dkeys stW.options
      ∧ "not-a-real-style" ∉ stW.mpl.available)
    ∧ setCall stW none Val.vnone [("style", Val.vstr "not-a-real-style")]
      = (stC3after,
         some (Err.invalidStyle "not-a-real-style" stW.mpl.available)) :=
  ⟨⟨by decide, by decide⟩,
   C3_invalid_style stW "not-a-real-style" (by decide) (by decide)
     (by decide) (by decide) (by decide)⟩

/-- C4 counterexample: invoking the render-global update for key `'style'`
with value `None` does not reset to the baseline style: the falsy-value
guard skips the body entirely, and an active style `'ggplot'` stays
`'ggplot'`. -/
theorem C4_counterexample :
    setMplGlobal mC4 "style" Val.vnone none = .ok mC4
      ∧ mC4.style ≠ "default" :=
  ⟨rfl, by decide⟩

/-- C4 (amended): for key `'style'`, a `None` value is skipped entirely by
the falsy-value guard, leaving the render state unchanged (the internal
`value is None` reset branch is unreachable); a truthy case-insensitive
`'covasim'` name does reset the render library to its baseline style. -/
theorem C4_style_none_skipped (m : MplState) (s : String)
    (hne : s ≠ "") (hcov : strLower s = "covasim") :
    setMplGlobal m "style" Val.vnone none = .ok m
      ∧ setMplGlobal m "style" (Val.vstr s) none
          = .ok { m with style := "default" } := by
  refine ⟨rfl, ?_⟩
  simp [setMplGlobal, truthy, hne, hcov]

/-- C4 witness: the amended theorem at a concrete input. -/
theorem C4_witness :
    (strLower "Covasim" = "covasim" ∧ "Covasim" ≠ "")
    ∧ (setMplGlobal mC4 "style" Val.vnone none = .ok mC4
      ∧ setMplGlobal mC4 "style" (Val.vstr "Covasim") none
          = .ok { mC4 with style := "default" }) :=
  ⟨⟨by decide, by decide⟩,
   C4_style_none_skipped mC4 "Covasim" (by decide) (by decide)⟩

/-- C9 counterexample: `'jupyterlab'` is not a recognized option name, yet
`set('jupyterlab', 1)` raises nothing (the claim requires `KeyNotFound`) and
mutates `dpi` (150 becomes 100): the substring `'jupyter'` routes the call
to the Jupyter preset. -/
theorem C9_counterexample :
    "jupyterlab" ∉ dkeys stC9.options
      ∧ (setCall stC9 (some "jupyterlab") (Val.vint 1) []).2 = none
      ∧ dlookup (setCall stC9 (some "jupyterlab") (Val.vint 1) []).1.options
          "dpi" = some (Val.vint 100)
      ∧ dlookup stC9.options "dpi" = some (Val.vint 150) := by
  decide

/-- C9 (amended): for every key string `k` that is not a recognized option
name and is none of the sentinels — not `'default'`/`'defaults'`, not a
string containing `'jupyter'` case-insensitively — nor the derived key
`'interactive'`, and every value `v`, `set(k, v)` raises `KeyNotFound`
listing the valid keys and leaves the entire state unchanged (no option
mutated, no side effect invoked). -/
theorem C9_unknown_key (st : OState) (k : String) (v : Val)
    (hk : k ∉ dkeys st.options)
    (hd1 : k ≠ "default") (hd2 : k ≠ "defaults")
    (hj : hasJupyter k = false) (hi : k ≠ "interactive") :
    setCall st (some k) v []
      = (st, some (Err.keyNotFound k (dkeys st.orig_options))) := by
  have hnone : dlookup st.options k = none := (dlookup_eq_none_iff _ _).mpr hk
  simp [setCall, stepA, stepB, mergedicts, dset, dlookup, processPairs,
    hd1, hd2, hj, hi, hnone]

/-- C9 witness: the amended theorem at a concrete input. -/
theorem C9_witness :
    ("bogus_key" ∉ dkeys stW.options ∧ hasJupyter "bogus_key" = false)
    ∧ setCall stW (some "bogus_key") (Val.vint 1) []
      = (stW, some (Err.keyNotFound "bogus_key" (dkeys stW.orig_options))) :=
  ⟨⟨by decide, by decide⟩,
   C9_unknown_key stW "bogus_key" (Val.vint 1) (by decide) (by decide)
     (by decide) (by decide) (by decide)⟩

/-! ## Decomposition of a successful set call -/

theorem setCall_ok_decomp (st st' : OState) (key : Option String) (value : Val)
    (kwargs kw1 kw2 : List (String × Val)) (aliased : Bool)
    (hA : stepA st key value kwargs = (kw1, aliased))
    (hB : stepB st.orig_options kw1 = .ok kw2)
    (hok : setCall st key value kwargs = (st', none)) :
    ∃ st3 rq3,
      processPairs (if aliased then { st with orig_options := kw2 } else st)
          false kw2 = (st3, rq3, none)
      ∧ st'.options = st3.options ∧ st'.orig_options = st3.orig_options
      ∧ st'.mpl = st3.mpl
      ∧ st'.reloadCount
          = (if rq3 then st3.reloadCount + 1 else st3.reloadCount) := by
  simp only [setCall, hA, hB] at hok
  cases aliased with
  | false =>
      rcases hpp : processPairs st false kw2 with ⟨st3, rq3, err3⟩
      simp only [Bool.false_eq_true, if_false, hpp] at hok
      cases err3 with
      | some e => simp at hok
      | none =>
          simp only [Prod.mk.injEq] at hok
          refine ⟨st3, rq3, hpp, ?_, ?_, ?_, ?_⟩ <;> rw [← hok.1]
  | true =>
      rcases hpp : processPairs { st with orig_options := kw2 } false kw2
        with ⟨st3, rq3, err3⟩
      simp only [if_true, hpp] at hok
      cases err3 with
      | some e => simp at hok
      | none =>
          simp only [Prod.mk.injEq] at hok
          refine ⟨st3, rq3, hpp, ?_, ?_, ?_, ?_⟩ <;> rw [← hok.1]

/-- A `set` call whose per-key loop raises returns the state committed so
far together with the raised exception. -/
theorem setCall_err_decomp (st : OState) (key : Option String) (value : Val)
    (kwargs kw1 kw2 : List (String × Val)) (aliased : Bool)
    (hA : stepA st key value kwargs = (kw1, aliased))
    (hB : stepB st.orig_options kw1 = .ok kw2) :
    ∀ (st3 : OState) (rq3 : Bool) (e3 : Err),
      processPairs (if aliased then { st with orig_options := kw2 } else st)
          false kw2 = (st3, rq3, some e3) →
      setCall st key value kwargs = (st3, some e3) := by
  intro st3 rq3 e3 hpp
  simp only [setCall, hA, hB]
  cases aliased with
  | false =>
      simp only [Bool.false_eq_true, if_false] at hpp ⊢
      rw [hpp]
  | true =>
      simp only [if_true] at hpp ⊢
      rw [hpp]

/-- A `set` call whose per-key loop completes returns the final state with
the reload applied (once, if required) and no exception. -/
theorem setCall_ok_eq (st : OState) (key : Option String) (value : Val)
    (kwargs kw1 kw2 : List (String × Val)) (aliased : Bool)
    (hA : stepA st key value kwargs = (kw1, aliased))
    (hB : stepB st.orig_options kw1 = .ok kw2) :
    ∀ (st3 : OState) (rq3 : Bool),
      processPairs (if aliased then { st with orig_options := kw2 } else st)
          false kw2 = (st3, rq3, none) →
      setCall st key value kwargs
        = ({ st3 with reloadCount :=
            if rq3 then st3.reloadCount + 1 else st3.reloadCount }, none) := by
  intro st3 rq3 hpp
  simp only [setCall, hA, hB]
  cases aliased with
  | false =>
      simp only [Bool.false_eq_true, if_false] at hpp ⊢
      rw [hpp]
  | true =>
      simp only [if_true] at hpp ⊢
      rw [hpp]

/-- A successful non-aliased `set` call: the stored value of a resolved
override key is its resolved value. -/
theorem setCall_lookup_noalias (st st' : OState) (key : Option String)
    (value : Val) (kwargs kw1 kw2 : List (String × Val)) (k : String) (v : Val)
    (hA : stepA st key value kwargs = (kw1, false))
    (hB : stepB st.orig_options kw1 = .ok kw2)
    (hnd2 : (dkeys kw2).Nodup)
    (hok : setCall st key value kwargs = (st', none))
    (hkv : dlookup kw2 k = some v) :
    dlookup st'.options k = resolveVal st.orig_options k v := by
  obtain ⟨st3, rq3, hpp, ho, -, -, -⟩ :=
    setCall_ok_decomp st st' key value kwargs kw1 kw2 false hA hB hok
  rw [ho]
  exact pp_lookup_ok kw2 _ st3 false rq3 hnd2 hpp k v (dlookup_mem _ _ _ hkv)

/-- A successful non-aliased `set` call leaves keys outside the resolved
overrides untouched. -/
theorem setCall_untouched_noalias (st st' : OState) (key : Option String)
    (value : Val) (kwargs kw1 kw2 : List (String × Val)) (k : String)
    (hA : stepA st key value kwargs = (kw1, false))
    (hB : stepB st.orig_options kw1 = .ok kw2)
    (hok : setCall st key value kwargs = (st', none))
    (hk : k ∉ dkeys kw2) :
    dlookup st'.options k = dlookup st.options k := by
  obtain ⟨st3, rq3, hpp, ho, -, -, -⟩ :=
    setCall_ok_decomp st st' key value kwargs kw1 kw2 false hA hB hok
  rw [ho]
  have hu := pp_untouched kw2 (if false then { st with orig_options := kw2 }
    else st) false k hk
  rw [hpp] at hu
  exact hu

/-- C7: a `set` call whose per-key loop completes without raising invokes
the numba reload exactly once if at least one of its resolved override keys
is an arithmetic-precision-affecting key (`precision`, `numba_parallel`,
`numba_cache`), and never invokes it otherwise — in particular
`set(show=True)` alone never reloads, and `set(precision=64)` reloads once
even combined with other precision-affecting keys in the same call. -/
theorem C7_reload_exactly_once (st st' : OState) (key : Option String)
    (value : Val) (kwargs kw2 : List (String × Val))
    (hres : resolvedOverrides st key value kwargs = .ok kw2)
    (hok : setCall st key value kwargs = (st', none)) :
    st'.reloadCount = st.reloadCount
      + (if kw2.any fun kv => decide (kv.1 ∈ numba_keys) then 1 else 0) := by
  simp only [resolvedOverrides] at hres
  rcases hA : stepA st key value kwargs with ⟨kw1, aliased⟩
  rw [hA] at hres
  obtain ⟨st3, rq3, hpp, -, -, -, hr⟩ :=
    setCall_ok_decomp st st' key value kwargs kw1 kw2 aliased hA hres hok
  have hrq := pp_rq_ok kw2 _ _ _ _ hpp
  have hrel := pp_reload kw2
    (if aliased then { st with orig_options := kw2 } else st) false
  rw [hpp] at hrel
  have hrel2 : st3.reloadCount = st.reloadCount := by
    rw [hrel]
    cases aliased <;> rfl
  rw [hr, hrel2, hrq]
  cases hany : (kw2.any fun kv => decide (kv.1 ∈ numba_keys)) <;>
    simp [hany]

/-- C7 witness: `set(precision=64)` on the default store reloads exactly
once, and `set(show=True)` alone does not reload. -/
theorem C7_witness :
    (resolvedOverrides stW none Val.vnone [("precision", Val.vint 64)]
        = .ok [("precision", Val.vint 64)]
      ∧ (setCall stW none Val.vnone [("precision", Val.vint 64)]).2 = none)
    ∧ (setCall stW none Val.vnone [("precision", Val.vint 64)]).1.reloadCount
      = stW.reloadCount
        + (if [("precision", Val.vint 64)].any
            fun kv => decide (kv.1 ∈ numba_keys) then 1 else 0) :=
  ⟨⟨by rfl, by decide⟩,
   C7_reload_exactly_once stW
     (setCall stW none Val.vnone [("precision", Val.vint 64)]).1 none
     Val.vnone [("precision", Val.vint 64)] [("precision", Val.vint 64)]
     (by rfl)
     (Prod.ext_iff.mpr ⟨rfl, by decide⟩)⟩

/-- C5: a multi-key `set` call is not transactional.  For a keyword-override
call whose resolved pairs split as `l1 ++ l2`, if the whole call raises but
the loop runs `l1` without raising (the error arises at a later pair), then
at the moment the error is raised every pair of `l1` has already been
committed to the live value mapping, at its resolved value. -/
theorem C5_not_transactional (st : OState) (l1 l2 : List (String × Val))
    (e : Err)
    (hnd : (dkeys (l1 ++ l2)).Nodup)
    (hni : "interactive" ∉ dkeys (l1 ++ l2))
    (herr : (setCall st none Val.vnone (l1 ++ l2)).2 = some e)
    (hok1 : (processPairs st false l1).2.2 = none) :
    ∀ (a : String) (b : Val), (a, b) ∈ l1 →
      dlookup (setCall st none Val.vnone (l1 ++ l2)).1.options a
        = resolveVal st.orig_options a b := by
  intro a b hab
  have hsb : stepB st.orig_options (l1 ++ l2) = .ok (l1 ++ l2) :=
    stepB_no_interactive _ _ ((dlookup_eq_none_iff _ _).mpr hni)
  have hnd' : (dkeys l1 ++ dkeys l2).Nodup := by
    have : dkeys (l1 ++ l2) = dkeys l1 ++ dkeys l2 := List.map_append _ _ _
    rw [← this]
    exact hnd
  rcases List.nodup_append.mp hnd' with ⟨hnd1, hnd2, hdisj⟩
  have hnotl2 : a ∉ dkeys l2 := fun hm => hdisj (mem_dkeys_of_mem hab) hm
  rcases hpp1 : processPairs st false l1 with ⟨st1, rq1, err1⟩
  rw [hpp1] at hok1
  dsimp only at hok1
  subst hok1
  have happ := pp_append_ok l1 l2 st st1 false rq1 hpp1
  rcases hpp2 : processPairs st1 rq1 l2 with ⟨st2b, rq2, err2⟩
  have hA : stepA st none Val.vnone (l1 ++ l2) = (l1 ++ l2, false) := rfl
  cases err2 with
  | none =>
      have hsc := setCall_ok_eq st none Val.vnone (l1 ++ l2) (l1 ++ l2)
        (l1 ++ l2) false hA hsb st2b rq2 (happ.trans hpp2)
      rw [hsc] at herr
      simp at herr
  | some e2 =>
      have hsc := setCall_err_decomp st none Val.vnone (l1 ++ l2) (l1 ++ l2)
        (l1 ++ l2) false hA hsb st2b rq2 e2 (happ.trans hpp2)
      rw [hsc]
      have hcom := pp_lookup_ok l1 st st1 false rq1 hnd1 hpp1 a b hab
      have hu := pp_untouched l2 st1 rq1 a hnotl2
      rw [hpp2] at hu
      dsimp only at hu ⊢
      rw [hu]
      exact hcom

/-- C5 witness: `set(dpi=150, bogus=1)` on the default store raises at
`bogus` with `dpi` already committed. -/
theorem C5_witness :
    ((dkeys ([("dpi", Val.vint 150)] ++ [("bogus", Val.vint 1)])).Nodup
      ∧ "interactive" ∉ dkeys ([("dpi", Val.vint 150)]
          ++ [("bogus", Val.vint 1)])
      ∧ (setCall stW none Val.vnone ([("dpi", Val.vint 150)]
          ++ [("bogus", Val.vint 1)])).2
        = some (Err.keyNotFound "bogus" (dkeys stW.orig_options))
      ∧ (processPairs stW false [("dpi", Val.vint 150)]).2.2 = none)
    ∧ dlookup (setCall stW none Val.vnone ([("dpi", Val.vint 150)]
          ++ [("bogus", Val.vint 1)])).1.options "dpi"
      = resolveVal stW.orig_options "dpi" (Val.vint 150) :=
  ⟨⟨by decide, by decide, by decide, by decide⟩,
   C5_not_transactional stW [("dpi", Val.vint 150)] [("bogus", Val.vint 1)]
     (Err.keyNotFound "bogus" (dkeys stW.orig_options)) (by decide)
     (by decide) (by decide) (by decide) "dpi" (Val.vint 150) (by decide)⟩

/-- C2: after a `set('defaults')` call that completes without raising, every
recognized key's current value equals the corresponding `orig_options` entry
(as `orig_options` stands immediately after the call): the call copies every
entry of `orig_options` into the live mapping, `None`/`'default'` entries
resolving to themselves — including `show`, `close` and `backend`. -/
theorem C2_set_defaults_restores (st st' : OState)
    (hnd : (dkeys st.orig_options).Nodup)
    (hkeys : dkeys st.options = dkeys st.orig_options)
    (hok : setCall st (some "defaults") Val.vnone [] = (st', none)) :
    ∀ k ∈ dkeys st'.options,
      dlookup st'.options k = dlookup st'.orig_options k := by
  intro k hk
  have hA : stepA st (some "defaults") Val.vnone []
      = (st.orig_options, true) := rfl
  rcases hB : stepB st.orig_options st.orig_options with e | kw2
  · have hsc : setCall st (some "defaults") Val.vnone [] = (st, some e) := by
      simp only [setCall, hA, hB]
    rw [hsc] at hok
    simp at hok
  · have hnd2 : (dkeys kw2).Nodup := stepB_nodup _ _ _ hB hnd
    obtain ⟨st3, rq3, hpp, ho, hor, -, -⟩ :=
      setCall_ok_decomp st st' (some "defaults") Val.vnone [] st.orig_options
        kw2 true hA hB hok
    have horig3 : st3.orig_options = kw2 := by
      have h := pp_orig kw2 { st with orig_options := kw2 } false
      rw [show processPairs { st with orig_options := kw2 } false kw2
          = (st3, rq3, none) from hpp] at h
      exact h
    have hdk : dkeys st3.options = dkeys st.options := by
      have h := pp_dkeys kw2 { st with orig_options := kw2 } false
      rw [show processPairs { st with orig_options := kw2 } false kw2
          = (st3, rq3, none) from hpp] at h
      exact h
    rw [ho] at hk ⊢
    rw [hor, horig3]
    have hkk2 : k ∈ dkeys kw2 := by
      rw [hdk, hkeys] at hk
      exact stepB_mem _ _ _ hB k hk
    obtain ⟨b, hb⟩ := exists_of_mem_dkeys hkk2
    have hlkw2 : dlookup kw2 k = some b := mem_dlookup _ _ _ hnd2 hb
    have hlook := pp_lookup_ok kw2 _ st3 false rq3 hnd2 hpp k b hb
    have hres : resolveVal kw2 k b = some b := by
      unfold resolveVal
      split
      · exact hlkw2
      · rfl
    rw [hlkw2]
    calc dlookup st3.options k = resolveVal kw2 k b := hlook
      _ = some b := hres

/-- C2 witness: restoring defaults on the default store. -/
theorem C2_witness :
    ((dkeys stW.orig_options).Nodup
      ∧ dkeys stW.options = dkeys stW.orig_options
      ∧ (setCall stW (some "defaults") Val.vnone []).2 = none
      ∧ "show" ∈ dkeys (setCall stW (some "defaults") Val.vnone []).1.options)
    ∧ dlookup (setCall stW (some "defaults") Val.vnone []).1.options "show"
      = dlookup (setCall stW (some "defaults") Val.vnone []).1.orig_options
          "show" :=
  ⟨⟨by decide, by decide, by decide, by decide⟩,
   C2_set_defaults_restores stW (setCall stW (some "defaults") Val.vnone []).1
     (by decide) (by decide) (Prod.ext_iff.mpr ⟨rfl, by decide⟩) "show"
     (by decide)⟩

/-- The effect of a successful keyword-override `set` call whose kwargs
contain `interactive`, in terms of the already-resolved interactive value
`ivr` (lines 212-214 of settings.py resolve it; lines 215-221 expand it). -/
theorem C6_aux (st st' : OState) (kwargs : List (String × Val)) (iv ivr : Val)
    (hnd : (dkeys kwargs).Nodup)
    (hiv : dlookup kwargs "interactive" = some iv)
    (hres : (if isNoneOrDefault iv then dlookup st.orig_options "interactive"
        else some iv) = some ivr)
    (hok : setCall st none Val.vnone kwargs = (st', none)) :
    (truthy ivr = true →
      dlookup st'.options "show" = some (Val.vbool true)
      ∧ dlookup st'.options "close" = some (Val.vbool false)
      ∧ dlookup st'.options "backend" = dlookup st.orig_options "backend")
    ∧ (truthy ivr = false →
      dlookup st'.options "show" = some (Val.vbool false)
      ∧ dlookup st'.options "backend" = some (Val.vstr "agg")
      ∧ ("close" ∉ dkeys kwargs →
          dlookup st'.options "close" = dlookup st.options "close")) := by
  have hA : stepA st none Val.vnone kwargs = (kwargs, false) := rfl
  by_cases ht : truthy ivr = true
  · cases hb : dlookup st.orig_options "backend" with
    | none =>
        exfalso
        have hBe : stepB st.orig_options kwargs
            = .error (.keyError "backend") := by
          simp [stepB, hiv, hres, ht, hb]
        have hsc : setCall st none Val.vnone kwargs
            = (st, some (.keyError "backend")) := by
          simp only [setCall, hA, hBe]
        rw [hsc] at hok
        simp at hok
    | some b =>
        have hB : stepB st.orig_options kwargs
            = .ok (dset (dset (dset kwargs "show" (.vbool true)) "close"
                (.vbool false)) "backend" b) := by
          simp [stepB, hiv, hres, ht, hb]
        have hnd2 : (dkeys (dset (dset (dset kwargs "show" (.vbool true))
            "close" (.vbool false)) "backend" b)).Nodup :=
          nodup_dkeys_dset _ _ _ (nodup_dkeys_dset _ _ _
            (nodup_dkeys_dset _ _ _ hnd))
        have hlshow : dlookup (dset (dset (dset kwargs "show" (.vbool true))
            "close" (.vbool false)) "backend" b) "show"
            = some (Val.vbool true) := by
          rw [dlookup_dset_ne _ _ _ _ (by decide : ("show" : String) ≠ "backend"),
            dlookup_dset_ne _ _ _ _ (by decide : ("show" : String) ≠ "close"),
            dlookup_dset_self]
        have hlclose : dlookup (dset (dset (dset kwargs "show" (.vbool true))
            "close" (.vbool false)) "backend" b) "close"
            = some (Val.vbool false) := by
          rw [dlookup_dset_ne _ _ _ _ (by decide : ("close" : String) ≠ "backend"),
            dlookup_dset_self]
        have hlback : dlookup (dset (dset (dset kwargs "show" (.vbool true))
            "close" (.vbool false)) "backend" b) "backend" = some b :=
          dlookup_dset_self _ _ _
        have h1 := setCall_lookup_noalias st st' none Val.vnone kwargs kwargs
          _ "show" (.vbool true) hA hB hnd2 hok hlshow
        have h2 := setCall_lookup_noalias st st' none Val.vnone kwargs kwargs
          _ "close" (.vbool false) hA hB hnd2 hok hlclose
        have h3 := setCall_lookup_noalias st st' none Val.vnone kwargs kwargs
          _ "backend" b hA hB hnd2 hok hlback
        refine ⟨fun _ => ⟨?_, ?_, ?_⟩,
          fun hf => absurd (ht.symm.trans hf) (by decide)⟩
        · rw [h1]
          simp [resolveVal, isNoneOrDefault]
        · rw [h2]
          simp [resolveVal, isNoneOrDefault]
        · rw [h3]
          unfold resolveVal
          split
          · exact hb
          · rfl
  · have ht' : truthy ivr = false := by
      cases hh : truthy ivr
      · rfl
      · exact absurd hh ht
    have hB : stepB st.orig_options kwargs
        = .ok (dset (dset kwargs "show" (.vbool false)) "backend"
            (.vstr "agg")) := by
      simp [stepB, hiv, hres, ht']
    have hnd2 : (dkeys (dset (dset kwargs "show" (.vbool false)) "backend"
        (.vstr "agg"))).Nodup :=
      nodup_dkeys_dset _ _ _ (nodup_dkeys_dset _ _ _ hnd)
    have hlshow : dlookup (dset (dset kwargs "show" (.vbool false)) "backend"
        (.vstr "agg")) "show" = some (Val.vbool false) := by
      rw [dlookup_dset_ne _ _ _ _ (by decide : ("show" : String) ≠ "backend"),
        dlookup_dset_self]
    have hlback : dlookup (dset (dset kwargs "show" (.vbool false)) "backend"
        (.vstr "agg")) "backend" = some (Val.vstr "agg") :=
      dlookup_dset_self _ _ _
    have h1 := setCall_lookup_noalias st st' none Val.vnone kwargs kwargs
      _ "show" (.vbool false) hA hB hnd2 hok hlshow
    have h2 := setCall_lookup_noalias st st' none Val.vnone kwargs kwargs
      _ "backend" (.vstr "agg") hA hB hnd2 hok hlback
    refine ⟨fun htt => absurd (ht'.symm.trans htt) (by decide),
      fun _ => ⟨?_, ?_, ?_⟩⟩
    · rw [h1]
      simp [resolveVal, isNoneOrDefault]
    · rw [h2]
      simp [resolveVal, isNoneOrDefault]
    · intro hcl
      have hcl2 : "close" ∉ dkeys (dset (dset kwargs "show" (.vbool false))
          "backend" (.vstr "agg")) := by
        intro hc
        rcases (mem_dkeys_dset _ _ _ _).mp hc with hc2 | hc2
        · rcases (mem_dkeys_dset _ _ _ _).mp hc2 with hc3 | hc3
          · exact hcl hc3
          · exact absurd hc3 (by decide)
        · exact absurd hc2 (by decide)
      exact setCall_untouched_noalias st st' none Val.vnone kwargs kwargs
        _ "close" hA hB hok hcl2

/-- C6: when `interactive` is among the resolved overrides of a successful
keyword-override `set` call, the call expands it: writing `ivr` for the
code's resolution of its value (`None`/`'default'` resolve to the original
default interactive value), a truthy `ivr` forces `show=True`, `close=False`
and `backend` equal to the original default backend, while a falsy `ivr`
forces `show=False` and `backend='agg'` and (when `close` is not itself an
explicit override) leaves the current value of `close` untouched. -/
theorem C6_interactive_expansion (st st' : OState)
    (kwargs : List (String × Val)) (iv : Val)
    (hnd : (dkeys kwargs).Nodup)
    (hiv : dlookup kwargs "interactive" = some iv)
    (hok : setCall st none Val.vnone kwargs = (st', none)) :
    (truthy (if isNoneOrDefault iv then
          (dlookup st.orig_options "interactive").getD Val.vnone else iv)
        = true →
      dlookup st'.options "show" = some (Val.vbool true)
      ∧ dlookup st'.options "close" = some (Val.vbool false)
      ∧ dlookup st'.options "backend" = dlookup st.orig_options "backend")
    ∧ (truthy (if isNoneOrDefault iv then
          (dlookup st.orig_options "interactive").getD Val.vnone else iv)
        = false →
      dlookup st'.options "show" = some (Val.vbool false)
      ∧ dlookup st'.options "backend" = some (Val.vstr "agg")
      ∧ ("close" ∉ dkeys kwargs →
          dlookup st'.options "close" = dlookup st.options "close")) := by
  by_cases hnod : isNoneOrDefault iv = true
  · cases horig : dlookup st.orig_options "interactive" with
    | none =>
        exfalso
        have hBe : stepB st.orig_options kwargs
            = .error (.keyError "interactive") := by
          simp [stepB, hiv, hnod, horig]
        have hsc : setCall st none Val.vnone kwargs
            = (st, some (.keyError "interactive")) := by
          simp only [setCall, stepA, hBe]
        rw [hsc] at hok
        simp at hok
    | some w =>
        have haux := C6_aux st st' kwargs iv w hnd hiv
          (by simp [hnod, horig]) hok
        simpa [hnod, horig] using haux
  · have haux := C6_aux st st' kwargs iv iv hnd hiv (by simp [hnod]) hok
    simpa [hnod] using haux

/-- C6 witness: `set(interactive=False)` on the default store. -/
theorem C6_witness :
    ((dkeys [("interactive", Val.vbool false)]).Nodup
      ∧ dlookup [("interactive", Val.vbool false)] "interactive"
          = some (Val.vbool false)
      ∧ (setCall stW none Val.vnone [("interactive", Val.vbool false)]).2
          = none)
    ∧ ((truthy (if isNoneOrDefault (Val.vbool false) then
          (dlookup stW.orig_options "interactive").getD Val.vnone
          else Val.vbool false) = true →
        dlookup (setCall stW none Val.vnone
            [("interactive", Val.vbool false)]).1.options "show"
          = some (Val.vbool true)
        ∧ dlookup (setCall stW none Val.vnone
            [("interactive", Val.vbool false)]).1.options "close"
          = some (Val.vbool false)
        ∧ dlookup (setCall stW none Val.vnone
            [("interactive", Val.vbool false)]).1.options "backend"
          = dlookup stW.orig_options "backend")
      ∧ (truthy (if isNoneOrDefault (Val.vbool false) then
          (dlookup stW.orig_options "interactive").getD Val.vnone
          else Val.vbool false) = false →
        dlookup (setCall stW none Val.vnone
            [("interactive", Val.vbool false)]).1.options "show"
          = some (Val.vbool false)
        ∧ dlookup (setCall stW none Val.vnone
            [("interactive", Val.vbool false)]).1.options "backend"
          = some (Val.vstr "agg")
        ∧ ("close" ∉ dkeys [("interactive", Val.vbool false)] →
            dlookup (setCall stW none Val.vnone
                [("interactive", Val.vbool false)]).1.options "close"
              = dlookup stW.options "close"))) :=
  ⟨⟨by decide, by decide, by decide⟩,
   C6_interactive_expansion stW
     (setCall stW none Val.vnone [("interactive", Val.vbool false)]).1
     [("interactive", Val.vbool false)] (Val.vbool false) (by decide)
     (by decide) (Prod.ext_iff.mpr ⟨rfl, by decide⟩)⟩

/-- C8: a successful `set` call whose positional key contains `'jupyter'`
case-insensitively (and whose explicit overrides do not include
`interactive`) applies the preset `{dpi: 100, show: False, close: True}` as
a base: each of these keys ends at the preset value when not explicitly
overridden, while an explicit override wins — e.g. `set('jupyter', dpi=300)`
yields `get('dpi') == 300`.  The notebook render-format adjustment in this
branch swallows every failure and touches no modelled state, so it cannot
abort the call. -/
theorem C8_jupyter_preset (st st' : OState) (k : String) (value : Val)
    (kwargs : List (String × Val))
    (hj : hasJupyter k = true)
    (hnd : (dkeys kwargs).Nodup)
    (hni : "interactive" ∉ dkeys kwargs)
    (hok : setCall st (some k) value kwargs = (st', none)) :
    ("dpi" ∉ dkeys kwargs →
        dlookup st'.options "dpi" = some (Val.vint 100))
    ∧ ("show" ∉ dkeys kwargs →
        dlookup st'.options "show" = some (Val.vbool false))
    ∧ ("close" ∉ dkeys kwargs →
        dlookup st'.options "close" = some (Val.vbool true))
    ∧ (∀ w, dlookup kwargs "dpi" = some w → isNoneOrDefault w = false →
        dlookup st'.options "dpi" = some w) := by
  have hd1 : ¬ (k = "default" ∨ k = "defaults") := by
    rintro (rfl | rfl) <;> exact absurd hj (by decide)
  have hA : stepA st (some k) value kwargs
      = (mergedicts jupyterKwargs kwargs, false) := by
    simp [stepA, hd1, hj]
  have hndj : (dkeys (mergedicts jupyterKwargs kwargs)).Nodup :=
    nodup_dkeys_mergedicts kwargs jupyterKwargs (by decide)
  have hint : dlookup (mergedicts jupyterKwargs kwargs) "interactive"
      = none := by
    rw [dlookup_mergedicts_of_not_mem kwargs jupyterKwargs "interactive" hni]
    rfl
  have hB : stepB st.orig_options (mergedicts jupyterKwargs kwargs)
      = .ok (mergedicts jupyterKwargs kwargs) :=
    stepB_no_interactive _ _ hint
  refine ⟨?_, ?_, ?_, ?_⟩
  · intro hdpi
    have hl : dlookup (mergedicts jupyterKwargs kwargs) "dpi"
        = some (Val.vint 100) := by
      rw [dlookup_mergedicts_of_not_mem kwargs jupyterKwargs "dpi" hdpi]
      rfl
    have h := setCall_lookup_noalias st st' (some k) value kwargs _ _ "dpi"
      (Val.vint 100) hA hB hndj hok hl
    rw [h]
    simp [resolveVal, isNoneOrDefault]
  · intro hshow
    have hl : dlookup (mergedicts jupyterKwargs kwargs) "show"
        = some (Val.vbool false) := by
      rw [dlookup_mergedicts_of_not_mem kwargs jupyterKwargs "show" hshow]
      rfl
    have h := setCall_lookup_noalias st st' (some k) value kwargs _ _ "show"
      (Val.vbool false) hA hB hndj hok hl
    rw [h]
    simp [resolveVal, isNoneOrDefault]
  · intro hclose
    have hl : dlookup (mergedicts jupyterKwargs kwargs) "close"
        = some (Val.vbool true) := by
      rw [dlookup_mergedicts_of_not_mem kwargs jupyterKwargs "close" hclose]
      rfl
    have h := setCall_lookup_noalias st st' (some k) value kwargs _ _ "close"
      (Val.vbool true) hA hB hndj hok hl
    rw [h]
    simp [resolveVal, isNoneOrDefault]
  · intro w hw hwnd
    have hl : dlookup (mergedicts jupyterKwargs kwargs) "dpi" = some w :=
      dlookup_mergedicts_of_lookup kwargs jupyterKwargs "dpi" w hnd hw
    have h := setCall_lookup_noalias st st' (some k) value kwargs _ _ "dpi" w
      hA hB hndj hok hl
    rw [h]
    simp [resolveVal, hwnd]

/-- C8 witness: `set('jupyter', dpi=300)` on the default store. -/
theorem C8_witness :
    (hasJupyter "jupyter" = true
      ∧ (dkeys [("dpi", Val.vint 300)]).Nodup
      ∧ "interactive" ∉ dkeys [("dpi", Val.vint 300)]
      ∧ (setCall stW (some "jupyter") Val.vnone [("dpi", Val.vint 300)]).2
          = none)
    ∧ (("dpi" ∉ dkeys [("dpi", Val.vint 300)] →
        dlookup (setCall stW (some "jupyter") Val.vnone
            [("dpi", Val.vint 300)]).1.options "dpi" = some (Val.vint 100))
      ∧ ("show" ∉ dkeys [("dpi", Val.vint 300)] →
        dlookup (setCall stW (some "jupyter") Val.vnone
            [("dpi", Val.vint 300)]).1.options "show"
          = some (Val.vbool false))
      ∧ ("close" ∉ dkeys [("dpi", Val.vint 300)] →
        dlookup (setCall stW (some "jupyter") Val.vnone
            [("dpi", Val.vint 300)]).1.options "close"
          = some (Val.vbool true))
      ∧ (∀ w, dlookup [("dpi", Val.vint 300)] "dpi" = some w →
          isNoneOrDefault w = false →
          dlookup (setCall stW (some "jupyter") Val.vnone
              [("dpi", Val.vint 300)]).1.options "dpi" = some w)) :=
  ⟨⟨by decide, by decide, by decide, by decide⟩,
   C8_jupyter_preset stW (setCall stW (some "jupyter") Val.vnone
       [("dpi", Val.vint 300)]).1 "jupyter" Val.vnone [("dpi", Val.vint 300)]
     (by decide) (by decide) (by decide) (Prod.ext_iff.mpr ⟨rfl, by decide⟩)⟩
